import Mathlib

/-!
Verification of the iconimation repository's generator scripts.

The repository's code under src/ is the single script makedemo.py:

  jsons = Path("demo/").glob("*.json")
  with open("demo/demo.html", "w") as f:
      print('<script src=".../lottie-player.js"></script>', file=f)
      print(file=f)
      print("""<multi-line style block>""", file=f)
      for filename in sorted([j.name for j in jsons]):
          print(f'<lottie-player ... src="./{filename}"></lottie-player>', file=f)

Shallow embedding notes (CPython semantics encoded as definitions):
* `Path("demo/").glob("*.json")` builds a lazy generator.  When iterated,
  pathlib's selector first checks `is_dir` on the parent and yields nothing
  if the directory does not exist; otherwise it yields every directory
  entry (of any kind: regular file, directory, symlink, ...) whose name
  fullmatches the fnmatch translation of `*.json`, i.e. whose name ends in
  the five characters ".json".  pathlib's glob does not special-case
  hidden (dot-prefixed) names.
* `open("demo/demo.html", "w")` raises FileNotFoundError, creating no
  file, when the parent directory `demo/` is missing.
* Python's `sorted` on strings is the unique ascending permutation under
  codepoint-lexicographic order, which coincides with Lean's `String`
  linear order; we model it with `List.insertionSort` (any sorted
  permutation of a list is unique for a total antisymmetric order, so the
  choice of algorithm is irrelevant).
* Each `print(x, file=f)` writes the payload followed by one newline; the
  file content is the concatenation of these writes in program order.
  (The script writes demo/demo.html into the scanned directory itself, but
  since "demo.html" does not end in ".json" and the glob generator is
  consumed after the open, this never changes the matched set.)
-/

namespace Iconimation

/-- Kind of a directory entry, as the filesystem exposes it. -/
inductive EntryKind where
  | file
  | dir
  | symlink
  | other
  deriving DecidableEq, Repr

/-- A directory entry: a name together with the kind of object it denotes. -/
structure Entry where
  name : String
  kind : EntryKind
  deriving DecidableEq, Repr

/-- The filesystem state makedemo.py observes: whether the directory
`demo/` exists, and its entries in filesystem traversal order. -/
structure FsState where
  demoDirExists : Bool
  demoEntries : List Entry
  deriving DecidableEq, Repr

/-- The `*.json` pattern of `Path("demo/").glob("*.json")`: fnmatch
translates it to a full match of `.*\.json`, i.e. the entry name ends with
".json" (a codepoint-suffix test, stated on the codepoint list so that it
evaluates by kernel reduction).  Entry kind is never consulted. -/
def isJsonName (s : String) : Bool := List.isSuffixOf ".json".data s.data

/-- `[j.name for j in jsons]` where `jsons = Path("demo/").glob("*.json")`:
empty when `demo/` is missing (pathlib's selector checks `is_dir` and
yields nothing), otherwise the names of the entries, of any kind, matching
the pattern, in traversal order. -/
def globJson (fs : FsState) : List String :=
  if fs.demoDirExists then
    (fs.demoEntries.filter (fun e => isJsonName e.name)).map Entry.name
  else []

/-- Codepoint-lexicographic comparison of codepoint lists, written as a
structurally recursive Boolean so that it evaluates by kernel reduction;
`lexLe as bs` holds when `as` is lexicographically at most `bs`. -/
def lexLe : List Char → List Char → Bool
  | [], _ => true
  | _ :: _, [] => false
  | a :: as, b :: bs => if a < b then true else if b < a then false else lexLe as bs

/-- Python's string comparison: codepoint-lexicographic on the codepoint
sequences. -/
def strLe (a b : String) : Bool := lexLe a.data b.data

/-- Python's `sorted` on strings: the ascending codepoint-lexicographic
permutation of the input list (unique once the order is total and
antisymmetric, so the sorting algorithm is irrelevant). -/
def sortStrings (l : List String) : List String :=
  List.insertionSort (fun a b => strLe a b = true) l

/-- Payload of the first print: the fixed external script tag line. -/
def scriptTagLine : String :=
  "<script src=\"https://unpkg.com/@lottiefiles/lottie-player@latest/dist/lottie-player.js\"></script>"

/-- Payload of the third print: the fixed triple-quoted inline style
block, with the exact newlines and indentation of the source. -/
def styleBlock : String :=
  "\n        <style>\n            lottie-player \x7b\n                width: 240px;\n                height: 240px;\n                display: inline-block;\n            \x7d\n        </style>\n        "

/-- Payload of the widget print for one filename: the lottie-player tag
with the filename spliced in verbatim by the f-string (no escaping). -/
def widgetLine (n : String) : String :=
  "<lottie-player autoplay loop mode=\"normal\" src=\"./" ++ n ++ "\"></lottie-player>"

/-- The sorted matched filenames: `sorted([j.name for j in jsons])`. -/
def widgetNames (fs : FsState) : List String :=
  sortStrings (globJson fs)

/-- The sequence of print payloads makedemo.py sends to demo/demo.html, in
program order: the script tag line, the bare `print(file=f)` (empty
payload), the style block, then one widget line per sorted matched
filename. -/
def makedemoPrints (fs : FsState) : List String :=
  [scriptTagLine, "", styleBlock] ++ (widgetNames fs).map widgetLine

/-- File content produced by a sequence of `print(x, file=f)` calls: each
payload followed by one newline. -/
def printsToDoc : List String → String
  | [] => ""
  | s :: rest => s ++ "\n" ++ printsToDoc rest

/-- The bytes makedemo.py writes to demo/demo.html on a successful run. -/
def htmlDoc (fs : FsState) : String :=
  printsToDoc (makedemoPrints fs)

/-- The single filesystem error class relevant here. -/
inductive FsError where
  | fileNotFound
  deriving DecidableEq, Repr

/-- `open("demo/demo.html", "w")`: fails with FileNotFoundError, creating
nothing, when the parent directory `demo/` is missing; otherwise opens
(creating/truncating) the output file. -/
def openDemoHtml (fs : FsState) : Except FsError Unit :=
  if fs.demoDirExists then Except.ok () else Except.error FsError.fileNotFound

/-- Outcome of one run: the content of demo/demo.html if the file was
created, and the error surfaced to the caller if any. -/
structure RunResult where
  written : Option String
  error : Option FsError
  deriving DecidableEq, Repr

/-- One run of makedemo.py: binding the lazy glob touches nothing; then
the output file is opened (this is where a missing demo/ aborts the run,
before any file is created); then the prints execute. -/
def makedemoRun (fs : FsState) : RunResult :=
  match openDemoHtml fs with
  | Except.error e => { written := none, error := some e }
  | Except.ok _ => { written := some (htmlDoc fs), error := none }

/-- Modelled from the spec: the JSON Manifest Generator script belongs to
the repository but is not under src/ (only makedemo.py is).  Spec 4.4/6:
given the sorted filename sequence it assembles a square-bracket-delimited,
comma-and-newline-separated list of double-quoted filenames, with no
trailing comma and no escaping of quote characters.  `quoteJoin` is the
comma-and-newline join of the double-quoted names. -/
def quoteJoin : List String → String
  | [] => ""
  | [n] => "\"" ++ n ++ "\""
  | n :: rest => "\"" ++ n ++ "\"" ++ ",\n" ++ quoteJoin rest

/-- Modelled from the spec: the JSON Renderer output, `[` ++ the joined
quoted names ++ `]`. -/
def jsonRender (names : List String) : String :=
  "[" ++ quoteJoin names ++ "]"

/-- Modelled from the spec: one run of the JSON Manifest Generator on a
directory's entries: enumerate names matching the suffix pattern, sort,
render.  The spec fixes the suffix pattern only as "a suffix pattern"; the
scenarios use `.json`, so the same filter as makedemo.py is used. -/
def jsonManifestRun (entries : List Entry) : String :=
  jsonRender (sortStrings ((entries.filter (fun e => isJsonName e.name)).map Entry.name))

/-! Helper lemmas shared by the claim theorems. -/

/-- One unfolding step of the comparison on nonempty lists. -/
theorem lexLe_cons_iff (a b : Char) (as bs : List Char) :
    lexLe (a :: as) (b :: bs) = true ↔ (a < b ∨ (a = b ∧ lexLe as bs = true)) := by
  rcases lt_trichotomy a b with h | h | h
  · simp [lexLe, h]
  · subst h
    simp [lexLe, lt_irrefl]
  · have h1 : ¬ a < b := lt_asymm h
    have h2 : a ≠ b := ne_of_gt h
    simp [lexLe, h, h1, h2]

/-- The comparison is total. -/
theorem lexLe_total : ∀ as bs : List Char, lexLe as bs = true ∨ lexLe bs as = true
  | [], _ => Or.inl rfl
  | _ :: _, [] => Or.inr rfl
  | a :: as, b :: bs => by
    rcases lt_trichotomy a b with h | h | h
    · exact Or.inl ((lexLe_cons_iff _ _ _ _).mpr (Or.inl h))
    · subst h
      rcases lexLe_total as bs with h' | h'
      · exact Or.inl ((lexLe_cons_iff _ _ _ _).mpr (Or.inr ⟨rfl, h'⟩))
      · exact Or.inr ((lexLe_cons_iff _ _ _ _).mpr (Or.inr ⟨rfl, h'⟩))
    · exact Or.inr ((lexLe_cons_iff _ _ _ _).mpr (Or.inl h))

/-- The comparison is transitive. -/
theorem lexLe_trans : ∀ as bs cs : List Char,
    lexLe as bs = true → lexLe bs cs = true → lexLe as cs = true
  | [], _, _, _, _ => rfl
  | _ :: _, [], _, h1, _ => absurd h1 (by simp [lexLe])
  | _ :: _, _ :: _, [], _, h2 => absurd h2 (by simp [lexLe])
  | a :: as, b :: bs, c :: cs, h1, h2 => by
    rw [lexLe_cons_iff] at h1 h2 ⊢
    rcases h1 with h1 | ⟨rfl, h1'⟩
    · rcases h2 with h2 | ⟨rfl, h2'⟩
      · exact Or.inl (lt_trans h1 h2)
      · exact Or.inl h1
    · rcases h2 with h2 | ⟨rfl, h2'⟩
      · exact Or.inl h2
      · exact Or.inr ⟨rfl, lexLe_trans as bs cs h1' h2'⟩

/-- The comparison is antisymmetric. -/
theorem lexLe_antisymm : ∀ as bs : List Char,
    lexLe as bs = true → lexLe bs as = true → as = bs
  | [], [], _, _ => rfl
  | [], _ :: _, _, h2 => absurd h2 (by simp [lexLe])
  | _ :: _, [], h1, _ => absurd h1 (by simp [lexLe])
  | a :: as, b :: bs, h1, h2 => by
    rw [lexLe_cons_iff] at h1 h2
    rcases h1 with h1 | ⟨rfl, h1'⟩
    · rcases h2 with h2 | ⟨h2, h2'⟩
      · exact absurd h2 (lt_asymm h1)
      · exact absurd h1 (h2 ▸ lt_irrefl _)
    · rcases h2 with h2 | ⟨h2, h2'⟩
      · exact absurd h2 (lt_irrefl _)
      · rw [lexLe_antisymm as bs h1' h2']

instance : IsTotal String (fun a b : String => strLe a b = true) :=
  ⟨fun a b => lexLe_total a.data b.data⟩

instance : IsTrans String (fun a b : String => strLe a b = true) :=
  ⟨fun a b c => lexLe_trans a.data b.data c.data⟩

instance : IsAntisymm String (fun a b : String => strLe a b = true) :=
  ⟨fun a b h1 h2 => by
    cases a with
    | mk da =>
      cases b with
      | mk db => exact congrArg String.mk (lexLe_antisymm da db h1 h2)⟩

/-- The Boolean comparison decides the lexicographic order on codepoint
lists. -/
theorem lexLe_iff_not_lex (as bs : List Char) :
    lexLe as bs = true ↔ ¬ List.Lex (fun c d : Char => c < d) bs as := by
  induction as generalizing bs with
  | nil =>
    cases bs with
    | nil =>
      simp only [lexLe]
      constructor
      · intro _ h
        cases h
      · intro _
        trivial
    | cons b bs =>
      simp only [lexLe]
      constructor
      · intro _ h
        cases h
      · intro _
        trivial
  | cons a as ih =>
    cases bs with
    | nil =>
      simp only [lexLe, Bool.false_eq_true, false_iff, not_not]
      exact List.Lex.nil
    | cons b bs =>
      rw [lexLe_cons_iff]
      constructor
      · rintro (h | ⟨rfl, h'⟩) hlex
        · cases hlex with
          | cons hl => exact absurd h (lt_irrefl _)
          | rel hr => exact absurd h (lt_asymm hr)
        · cases hlex with
          | cons hl => exact (ih bs).mp h' hl
          | rel hr => exact absurd hr (lt_irrefl _)
      · intro hn
        rcases lt_trichotomy a b with h | h | h
        · exact Or.inl h
        · subst h
          refine Or.inr ⟨rfl, (ih bs).mpr ?_⟩
          intro hl
          exact hn (List.Lex.cons hl)
        · exact absurd (List.Lex.rel h) hn

/-- The Boolean comparison decides the standard string order. -/
theorem strLe_iff_le (a b : String) : strLe a b = true ↔ a ≤ b := by
  rw [String.le_iff_toList_le, ← not_lt]
  exact lexLe_iff_not_lex a.data b.data

/-- When the directory exists, the glob result is the name-image of the
entries filtered by the suffix test on names alone. -/
theorem globJson_eq_filter_names (fs : FsState) (hd : fs.demoDirExists = true) :
    globJson fs = (fs.demoEntries.map Entry.name).filter isJsonName := by
  unfold globJson
  rw [hd]
  simp only [if_true]
  induction fs.demoEntries with
  | nil => rfl
  | cons e es ih =>
    by_cases h : isJsonName e.name
    · simp [List.filter_cons, h, ih]
    · simp [List.filter_cons, h, ih]

/-- The sorted names are a permutation of the glob result. -/
theorem widgetNames_perm (fs : FsState) : List.Perm (widgetNames fs) (globJson fs) :=
  List.perm_insertionSort _ _

/-- The widget names are sorted under the Boolean comparison. -/
theorem widgetNames_sorted (fs : FsState) :
    List.Sorted (fun a b : String => strLe a b = true) (widgetNames fs) :=
  List.sorted_insertionSort _ _

/-- The widget names are sorted under the standard string order. -/
theorem widgetNames_sorted_le (fs : FsState) :
    List.Sorted (fun a b : String => a ≤ b) (widgetNames fs) :=
  List.Pairwise.imp (fun h => (strLe_iff_le _ _).mp h) (widgetNames_sorted fs)

/-- C1: for a valid input directory (the directory exists and its entry
names are unique, as a real directory guarantees), the filenames in the
widget lines of the generated output are exactly the entries matching the
`*.json` suffix filter: no duplicates, no omissions. -/
theorem widget_filenames_complete (fs : FsState)
    (hd : fs.demoDirExists = true)
    (hnd : (fs.demoEntries.map Entry.name).Nodup) :
    (widgetNames fs).Nodup ∧
    ∀ n : String, n ∈ widgetNames fs ↔
      ∃ e, e ∈ fs.demoEntries ∧ e.name = n ∧ isJsonName n = true := by
  have hg : globJson fs = (fs.demoEntries.map Entry.name).filter isJsonName :=
    globJson_eq_filter_names fs hd
  constructor
  · exact ((widgetNames_perm fs).nodup_iff).mpr (hg ▸ hnd.filter _)
  · intro n
    rw [(widgetNames_perm fs).mem_iff, hg, List.mem_filter]
    simp only [List.mem_map]
    constructor
    · rintro ⟨⟨e, he, rfl⟩, hj⟩
      exact ⟨e, he, rfl, hj⟩
    · rintro ⟨e, he, rfl, hj⟩
      exact ⟨⟨e, he, rfl⟩, hj⟩

/-- Witness for C1 at a concrete directory with entries b.json, a.json,
note.txt. -/
theorem widget_filenames_complete_witness :
    (widgetNames ⟨true, [⟨"b.json", EntryKind.file⟩, ⟨"a.json", EntryKind.file⟩,
        ⟨"note.txt", EntryKind.file⟩]⟩).Nodup ∧
    ∀ n : String, n ∈ widgetNames ⟨true, [⟨"b.json", EntryKind.file⟩,
        ⟨"a.json", EntryKind.file⟩, ⟨"note.txt", EntryKind.file⟩]⟩ ↔
      ∃ e, e ∈ [⟨"b.json", EntryKind.file⟩, ⟨"a.json", EntryKind.file⟩,
        (⟨"note.txt", EntryKind.file⟩ : Entry)] ∧ e.name = n ∧ isJsonName n = true :=
  widget_filenames_complete _ rfl (by decide)

/-- C2: the widget filenames are in ascending lexicographic order, and two
filesystem states whose directories hold the same entries in any traversal
order produce the same widget filename sequence. -/
theorem widget_order_sorted_deterministic (fs fs' : FsState)
    (hperm : List.Perm fs.demoEntries fs'.demoEntries)
    (hd : fs.demoDirExists = fs'.demoDirExists) :
    List.Sorted (fun a b : String => a ≤ b) (widgetNames fs) ∧
    widgetNames fs = widgetNames fs' := by
  refine ⟨widgetNames_sorted_le fs, ?_⟩
  have hg : List.Perm (globJson fs) (globJson fs') := by
    unfold globJson
    rw [hd]
    by_cases h : fs'.demoDirExists = true
    · rw [h]
      simp only [if_true]
      exact (hperm.filter _).map _
    · rw [Bool.not_eq_true] at h
      rw [h]
      simp only [Bool.false_eq_true, if_false]
      exact List.Perm.refl _
  exact List.eq_of_perm_of_sorted
    ((widgetNames_perm fs).trans (hg.trans (widgetNames_perm fs').symm))
    (widgetNames_sorted fs) (widgetNames_sorted fs')

/-- Witness for C2 at two traversal orders of the same two-entry
directory. -/
theorem widget_order_sorted_deterministic_witness :
    List.Sorted (fun a b : String => a ≤ b)
      (widgetNames ⟨true, [⟨"b.json", EntryKind.file⟩, ⟨"a.json", EntryKind.file⟩]⟩) ∧
    widgetNames ⟨true, [⟨"b.json", EntryKind.file⟩, ⟨"a.json", EntryKind.file⟩]⟩ =
      widgetNames ⟨true, [⟨"a.json", EntryKind.file⟩, ⟨"b.json", EntryKind.file⟩]⟩ :=
  widget_order_sorted_deterministic _ _ (by decide) rfl

/-- C3: two runs that observe the same set of matching filenames (each
without duplicates, as directory entries are) write byte-identical
documents, and the document written is the run's html output. -/
theorem run_same_set_byte_identical (fs fs' : FsState)
    (hd : fs.demoDirExists = true) (hd' : fs'.demoDirExists = true)
    (hnd : (globJson fs).Nodup) (hnd' : (globJson fs').Nodup)
    (hmem : ∀ n : String, n ∈ globJson fs ↔ n ∈ globJson fs') :
    (makedemoRun fs).written = (makedemoRun fs').written ∧
    (makedemoRun fs).written = some (htmlDoc fs) := by
  have hp : List.Perm (globJson fs) (globJson fs') :=
    (List.perm_ext_iff_of_nodup hnd hnd').mpr hmem
  have hw : widgetNames fs = widgetNames fs' :=
    List.eq_of_perm_of_sorted
      ((widgetNames_perm fs).trans (hp.trans (widgetNames_perm fs').symm))
      (widgetNames_sorted fs) (widgetNames_sorted fs')
  have hdoc : htmlDoc fs = htmlDoc fs' := by
    unfold htmlDoc makedemoPrints
    rw [hw]
  constructor
  · unfold makedemoRun openDemoHtml
    rw [hd, hd', hdoc]
  · unfold makedemoRun openDemoHtml
    rw [hd]
    exact rfl

/-- Witness for C3: the same directory observed in two traversal orders
yields the same written bytes. -/
theorem run_same_set_byte_identical_witness :
    (makedemoRun ⟨true, [⟨"b.json", EntryKind.file⟩, ⟨"a.json", EntryKind.file⟩]⟩).written =
      (makedemoRun ⟨true, [⟨"a.json", EntryKind.file⟩, ⟨"b.json", EntryKind.file⟩]⟩).written ∧
    (makedemoRun ⟨true, [⟨"b.json", EntryKind.file⟩, ⟨"a.json", EntryKind.file⟩]⟩).written =
      some (htmlDoc ⟨true, [⟨"b.json", EntryKind.file⟩, ⟨"a.json", EntryKind.file⟩]⟩) :=
  run_same_set_byte_identical _ _ rfl rfl (by decide) (by decide)
    (by
      intro n
      show n ∈ ["b.json", "a.json"] ↔ n ∈ ["a.json", "b.json"]
      simp only [List.mem_cons, List.not_mem_nil, or_false]
      exact or_comm)

/-- C4: the print sequence of a run is exactly the fixed script tag line,
the blank separator line of the bare print, the fixed style block, then
one widget tag line per matched filename in sorted order, and nothing
else; at the byte level the document is those payloads each followed by a
newline. -/
theorem html_document_structure (fs : FsState) :
    makedemoPrints fs = [scriptTagLine, "", styleBlock] ++ (widgetNames fs).map widgetLine ∧
    ((widgetNames fs).map widgetLine).length = (globJson fs).length ∧
    htmlDoc fs = scriptTagLine ++ "\n" ++
      ("" ++ "\n" ++ (styleBlock ++ "\n" ++ printsToDoc ((widgetNames fs).map widgetLine))) := by
  refine ⟨rfl, ?_, rfl⟩
  rw [List.length_map]
  exact (widgetNames_perm fs).length_eq

/-- C5: each widget line splices the filename verbatim between the fixed
pieces, with no escaping, and for a directory holding exactly x.json the
final print of the run is the x.json widget line. -/
theorem widget_line_verbatim :
    (∀ n : String, widgetLine n =
      "<lottie-player autoplay loop mode=\"normal\" src=\"./" ++ n ++ "\"></lottie-player>") ∧
    (makedemoPrints ⟨true, [⟨"x.json", EntryKind.file⟩]⟩).getLast? =
      some "<lottie-player autoplay loop mode=\"normal\" src=\"./x.json\"></lottie-player>" :=
  ⟨fun _ => rfl, by decide⟩

/-- C6: when no directory entry matches the suffix filter (in particular
for an empty directory), the run prints only the fixed header: script tag
line, blank separator, style block, and zero widget lines. -/
theorem empty_dir_header_only (fs : FsState)
    (hmatch : ∀ e, e ∈ fs.demoEntries → isJsonName e.name = false) :
    makedemoPrints fs = [scriptTagLine, "", styleBlock] ∧
    htmlDoc fs = scriptTagLine ++ "\n" ++ ("" ++ "\n" ++ (styleBlock ++ "\n")) := by
  have hg : globJson fs = [] := by
    unfold globJson
    by_cases h : fs.demoDirExists = true
    · rw [h]
      simp only [if_true, List.map_eq_nil_iff]
      rw [List.filter_eq_nil_iff]
      intro e he
      simp [hmatch e he]
    · rw [Bool.not_eq_true] at h
      rw [h]
      simp
  have hw : widgetNames fs = [] := by
    unfold widgetNames sortStrings
    rw [hg]
    rfl
  constructor
  · unfold makedemoPrints
    rw [hw]
    rfl
  · unfold htmlDoc makedemoPrints
    rw [hw]
    rfl

/-- Witness for C6 at a directory holding only note.txt. -/
theorem empty_dir_header_only_witness :
    makedemoPrints ⟨true, [⟨"note.txt", EntryKind.file⟩]⟩ = [scriptTagLine, "", styleBlock] ∧
    htmlDoc ⟨true, [⟨"note.txt", EntryKind.file⟩]⟩ =
      scriptTagLine ++ "\n" ++ ("" ++ "\n" ++ (styleBlock ++ "\n")) :=
  empty_dir_header_only _ (by decide)

/-- C7: when the input directory is missing the run surfaces a filesystem
error to the caller and no output file is created. -/
theorem missing_dir_fails_no_output (fs : FsState) (hd : fs.demoDirExists = false) :
    (makedemoRun fs).error = some FsError.fileNotFound ∧
    (makedemoRun fs).written = none := by
  unfold makedemoRun openDemoHtml
  rw [hd]
  exact ⟨rfl, rfl⟩

/-- Witness for C7 at the state where demo/ does not exist. -/
theorem missing_dir_fails_no_output_witness :
    (makedemoRun ⟨false, []⟩).error = some FsError.fileNotFound ∧
    (makedemoRun ⟨false, []⟩).written = none :=
  missing_dir_fails_no_output _ rfl

/-- C8: the JSON Manifest Generator, modelled from the spec, writes the
bracket-delimited comma-and-newline-joined quoted names with no trailing
comma: on a directory holding b.json and a.json it writes exactly
the thirteen characters of bracket, quoted a.json, comma, newline, quoted
b.json, bracket, and on an empty directory it writes the two brackets. -/
theorem json_manifest_scenarios :
    jsonManifestRun [⟨"b.json", EntryKind.file⟩, ⟨"a.json", EntryKind.file⟩] =
      "[\"a.json\",\n\"b.json\"]" ∧
    jsonManifestRun [] = "[]" := by
  exact ⟨by decide, rfl⟩

/-- C9: the glob filter reads only entry names, never entry kinds: two
entry lists with the same names in the same order produce the same glob
result, and every entry whose name passes the suffix test, of whatever
kind, contributes its name to the result. -/
theorem glob_matches_any_entry_kind (es es' : List Entry)
    (hnames : es.map Entry.name = es'.map Entry.name) :
    globJson ⟨true, es⟩ = globJson ⟨true, es'⟩ ∧
    ∀ e, e ∈ es → isJsonName e.name = true → e.name ∈ globJson ⟨true, es⟩ := by
  have h1 : globJson ⟨true, es⟩ = (es.map Entry.name).filter isJsonName :=
    globJson_eq_filter_names ⟨true, es⟩ rfl
  have h2 : globJson ⟨true, es'⟩ = (es'.map Entry.name).filter isJsonName :=
    globJson_eq_filter_names ⟨true, es'⟩ rfl
  constructor
  · rw [h1, h2, hnames]
  · intro e he hj
    rw [h1, List.mem_filter]
    exact ⟨List.mem_map.mpr ⟨e, he, rfl⟩, hj⟩

/-- Witness for C9: a subdirectory named sub.json is matched exactly as a
regular file of that name would be. -/
theorem glob_matches_any_entry_kind_witness :
    globJson ⟨true, [⟨"sub.json", EntryKind.dir⟩]⟩ =
      globJson ⟨true, [⟨"sub.json", EntryKind.file⟩]⟩ ∧
    ∀ e, e ∈ [(⟨"sub.json", EntryKind.dir⟩ : Entry)] → isJsonName e.name = true →
      e.name ∈ globJson ⟨true, [⟨"sub.json", EntryKind.dir⟩]⟩ :=
  glob_matches_any_entry_kind _ _ rfl

/-- C10: iterating the glob over a missing directory yields the empty
sequence without raising; the failure of such a run comes solely from
opening demo/demo.html for writing, which is the error the run reports
with no file written. -/
theorem glob_missing_dir_empty_open_fails (fs : FsState)
    (hd : fs.demoDirExists = false) :
    globJson fs = [] ∧
    openDemoHtml fs = Except.error FsError.fileNotFound ∧
    makedemoRun fs = { written := none, error := some FsError.fileNotFound } := by
  unfold makedemoRun globJson openDemoHtml
  rw [hd]
  exact ⟨rfl, rfl, rfl⟩

/-- Witness for C10 at the state where demo/ does not exist. -/
theorem glob_missing_dir_empty_open_fails_witness :
    globJson ⟨false, []⟩ = [] ∧
    openDemoHtml ⟨false, []⟩ = Except.error FsError.fileNotFound ∧
    makedemoRun ⟨false, []⟩ = { written := none, error := some FsError.fileNotFound } :=
  glob_missing_dir_empty_open_fails _ rfl

end Iconimation
